import Mathlib

/-!
Shallow embedding of the glitch video-effect engine (`src/src/App.tsx`).

The per-tick render loop is modelled as a pure function from a tick input
(availability of the canvas/video handles, container size, video readiness
and dimensions), a parameter snapshot and an explicit random stream
(`rng : ℕ → ℚ`, standing for the successive values returned by the
platform's random source, consumed in program order) to the list of drawing
commands issued against the 2D context, together with whether a next
animation frame is scheduled and how many random values were consumed.

Pixel-level semantics is given only to the two drawing commands whose
arithmetic the page itself fixes (`fillRect` with normal compositing, and
`putImageData` on an opaque surface); the image-sampling commands
(`drawImage`, `strokeRect`) are deferred to an abstract `platform`
interpretation, since their rasterisation is the browser's, not this
repository's.

The recording subsystem (`startRecording` / `stopRecording` and the
`MediaRecorder` callbacks) and the play-state handlers (`togglePlay`,
the `videoSrc` effect) are modelled as explicit state machines.
-/

namespace Glitch

/-- The effect-parameter snapshot (`params` state in `App.tsx`). -/
structure Params where
  threshold : ℚ
  brightness : ℚ
  chaos : ℚ
  slices : ℕ
  displacement : ℚ
  feedback : ℚ
  invertChance : ℚ
  scale : ℚ
  zoomGlitch : ℚ
deriving DecidableEq

/-- The default parameter values (`resetParams` / initial `useState`). -/
def defaultParams : Params :=
  ⟨200, 100, 1/2, 5, 50, 1/10, 1/10, 1, 1/10⟩

/-- Canvas composite modes used by the source (`globalCompositeOperation`). -/
inductive Comp
  | sourceOver
  | screen
  | difference
deriving DecidableEq

/-- Canvas filter chains used by the source (`ctx.filter` strings):
`contrast(t%) brightness(b%) grayscale(100%)` and
`invert(100%) contrast(t%) grayscale(100%)`. -/
inductive PixFilter
  | contrastBrightnessGrayscale (c b : ℚ)
  | invertContrastGrayscale (c : ℚ)
deriving DecidableEq

/-- One drawing command issued against the 2D context during a tick. -/
inductive DrawOp
  | fillRect (x y w h : ℚ) (cr cg cb ca : ℚ) (comp : Comp)
  | putImage (w h : ℕ) (buf : List ℕ)
  | drawImageFull (dx dy dw dh : ℚ) (filt : PixFilter) (comp : Comp)
  | drawImageSlice (sx sy sw sh dx dy dw dh : ℚ) (filt : PixFilter) (comp : Comp)
  | strokeRect (x y w h : ℚ) (cr cg cb ca lineWidth : ℚ)
deriving DecidableEq

/-- The helper `r(min, max) = Math.random() * (max - min) + min`, with the
random draw `u` made explicit. -/
def rval (u mi ma : ℚ) : ℚ := u * (ma - mi) + mi

/-- `scale = Math.max(w / vw, h / vh) * params.scale` (base cover fit). -/
def coverScale (w h vw vh pscale : ℚ) : ℚ := max (w / vw) (h / vh) * pscale

/-- `offsetX = (w - drawW) / 2` where `drawW = vw * scale`. -/
def offsetX (w h vw vh pscale : ℚ) : ℚ := (w - vw * coverScale w h vw vh pscale) / 2

/-- `offsetY = (h - drawH) / 2` where `drawH = vh * scale`. -/
def offsetY (w h vw vh pscale : ℚ) : ℚ := (h - vh * coverScale w h vw vh pscale) / 2

/-- Source/destination geometry of one glitch slice, reading the random
stream at the indices a successful loop iteration starting at `k` consumes:
`k+2 .. k+5` for the source rectangle, `k+6, k+7` for the displacement
draws and `k+8` for the zoom draw. -/
structure SliceGeom where
  sx : ℚ
  sy : ℚ
  sw : ℚ
  sh : ℚ
  dx : ℚ
  dy : ℚ
  dw : ℚ
  dh : ℚ
deriving DecidableEq

/-- The slice geometry computed by the body of the glitch loop. -/
def sliceGeom (P : Params) (vw vh sc oX oY : ℚ) (rng : ℕ → ℚ) (k : ℕ) : SliceGeom :=
  let sx := rng (k+2) * vw
  let sy := rng (k+3) * vh
  let sw := rng (k+4) * (vw / 2)
  let sh := rng (k+5) * (vh / 2)
  let dx := sx * sc + oX + rval (rng (k+6)) (-P.displacement) P.displacement
  let dy := sy * sc + oY + rval (rng (k+7)) (-P.displacement) P.displacement
  let z := 1 + rng (k+8) * P.zoomGlitch
  ⟨sx, sy, sw, sh, dx, dy, sw * sc * z, sh * sc * z⟩

/-- Filter and composite mode of one slice: inverted with `difference`
blending with probability `invertChance` (draw at index `k+1`), otherwise
the base filter chain with normal compositing. -/
def sliceFilter (P : Params) (rng : ℕ → ℚ) (k : ℕ) : PixFilter × Comp :=
  if rng (k+1) < P.invertChance then
    (PixFilter.invertContrastGrayscale P.threshold, Comp.difference)
  else
    (PixFilter.contrastBrightnessGrayscale P.threshold P.brightness, Comp.sourceOver)

/-- One iteration of the glitch-slice loop, starting at random index `k`:
the chaos test consumes index `k`; a successful attempt consumes ten
indices in total (`k .. k+9`, the last being the scanline test), a failed
one consumes one. -/
def sliceIter (P : Params) (vw vh sc oX oY : ℚ) (rng : ℕ → ℚ) (k : ℕ) :
    List DrawOp × ℕ :=
  if 1 - P.chaos < rng k then
    let g := sliceGeom P vw vh sc oX oY rng k
    let fc := sliceFilter P rng k
    let main := DrawOp.drawImageSlice g.sx g.sy g.sw g.sh g.dx g.dy g.dw g.dh fc.1 fc.2
    if rng (k+9) < 3/10 then
      ([main, DrawOp.strokeRect g.dx g.dy g.dw g.dh 255 255 255 1 2], k + 10)
    else
      ([main], k + 10)
  else ([], k + 1)

/-- The glitch-slice loop (`for i in 0..slices`), threading the random
index; returns the drawing commands of all iterations in order and the
next unconsumed random index. -/
def sliceLoop (P : Params) (vw vh sc oX oY : ℚ) (rng : ℕ → ℚ) :
    ℕ → ℕ → List DrawOp × ℕ
  | 0, k => ([], k)
  | n+1, k =>
    let it := sliceIter P vw vh sc oX oY rng k
    let rest := sliceLoop P vw vh sc oX oY rng n it.2
    (it.1 ++ rest.1, rest.2)

/-- The `0xff1a1a1a` word written for a selected noise pixel. -/
def noisePixel : ℕ := 0xff1a1a1a

/-- The `ImageData` word buffer built in the no-signal branch: one 32-bit
word per pixel, `0xff1a1a1a` when that pixel's random draw is below `0.1`,
otherwise the initial `0`. -/
def noiseBuffer (rng : ℕ → ℚ) (k len : ℕ) : List ℕ :=
  (List.range len).map (fun i => if rng (k+i) < 1/10 then noisePixel else 0)

/-- The feedback overlay issued first on every tick:
`fillRect(0,0,w,h)` with `fillStyle = rgba(0,0,0, 1 - feedback)` under
normal compositing. -/
def tickOverlay (w h : ℕ) (fb : ℚ) : DrawOp :=
  DrawOp.fillRect 0 0 (w : ℚ) (h : ℚ) 0 0 0 (1 - fb) Comp.sourceOver

/-- Input of one `renderLoop` invocation: availability of the two refs,
the container's client size (if the container ref is set), the canvas's
current size, the video's `readyState`, whether `videoSrc` is set, and the
video's natural dimensions. -/
structure TickInput where
  canvasAvail : Bool
  videoAvail : Bool
  container : Option (ℕ × ℕ)
  canvasW : ℕ
  canvasH : ℕ
  readyState : ℕ
  videoSrcSet : Bool
  vw : ℚ
  vh : ℚ

/-- Canvas size after the resize-handling block: the container's client
size when the container ref is available, else unchanged. -/
def resizedDims (inp : TickInput) : ℕ × ℕ :=
  match inp.container with
  | some wh => wh
  | none => (inp.canvasW, inp.canvasH)

/-- Result of one `renderLoop` invocation: the drawing commands issued, in
order; whether a next animation frame was requested; the canvas size after
resize handling; and the number of random values consumed. -/
structure TickOutput where
  ops : List DrawOp
  schedulesNext : Bool
  canvasW : ℕ
  canvasH : ℕ
  nextIdx : ℕ
deriving DecidableEq

/-- One invocation of `renderLoop` (`App.tsx`, the `useCallback` body):
guard on the refs, resize, feedback overlay, no-signal noise fallback,
base cover-fit draw, glitch-slice loop, and scheduling of the next frame. -/
def renderLoop (inp : TickInput) (P : Params) (rng : ℕ → ℚ) : TickOutput :=
  if inp.canvasAvail && inp.videoAvail then
    let w := (resizedDims inp).1
    let h := (resizedDims inp).2
    let fill := tickOverlay w h P.feedback
    if inp.readyState < 2 then
      if inp.videoSrcSet then
        ⟨[fill], true, w, h, 0⟩
      else
        ⟨[fill, DrawOp.putImage w h (noiseBuffer rng 0 (w * h))], true, w, h, w * h⟩
    else
      let sc := coverScale (w : ℚ) (h : ℚ) inp.vw inp.vh P.scale
      let oX := offsetX (w : ℚ) (h : ℚ) inp.vw inp.vh P.scale
      let oY := offsetY (w : ℚ) (h : ℚ) inp.vw inp.vh P.scale
      let base := DrawOp.drawImageFull oX oY (inp.vw * sc) (inp.vh * sc)
        (PixFilter.contrastBrightnessGrayscale P.threshold P.brightness) Comp.screen
      let sl := sliceLoop P inp.vw inp.vh sc oX oY rng P.slices 0
      ⟨fill :: base :: sl.1, true, w, h, sl.2⟩
  else
    ⟨[], false, inp.canvasW, inp.canvasH, 0⟩

/-- The cover scale of a tick, in terms of the post-resize surface size. -/
def tickScale (inp : TickInput) (P : Params) : ℚ :=
  coverScale ((resizedDims inp).1 : ℚ) ((resizedDims inp).2 : ℚ) inp.vw inp.vh P.scale

/-- The base-draw x offset of a tick. -/
def tickOffsetX (inp : TickInput) (P : Params) : ℚ :=
  offsetX ((resizedDims inp).1 : ℚ) ((resizedDims inp).2 : ℚ) inp.vw inp.vh P.scale

/-- The base-draw y offset of a tick. -/
def tickOffsetY (inp : TickInput) (P : Params) : ℚ :=
  offsetY ((resizedDims inp).1 : ℚ) ((resizedDims inp).2 : ℚ) inp.vw inp.vh P.scale

/-- The base cover-fit draw command of a tick: the full frame scaled by the
cover scale at the centered offsets, with the contrast/brightness/grayscale
filter chain, composited with `screen`. -/
def baseDraw (inp : TickInput) (P : Params) : DrawOp :=
  DrawOp.drawImageFull (tickOffsetX inp P) (tickOffsetY inp P)
    (inp.vw * tickScale inp P) (inp.vh * tickScale inp P)
    (PixFilter.contrastBrightnessGrayscale P.threshold P.brightness) Comp.screen

/-- A value produced by one draw of the platform random source. -/
def unitIv (u : ℚ) : Prop := 0 ≤ u ∧ u < 1

/-- Well-formedness of a slice draw command relative to the frame size, the
cover scale and the base offsets: the source rectangle's origin is a unit
draw scaled over the full frame extent and its size a unit draw scaled over
half the frame extent; the destination position is the source position
mapped through the cover transform plus a displacement within
`[-displacement, displacement]`; and the destination size is the source
size times the cover scale times one shared zoom factor in
`[1, 1 + zoomGlitch]`. Non-slice commands are unconstrained. -/
def sliceOpWf (P : Params) (vw vh sc oX oY : ℚ) : DrawOp → Prop
  | DrawOp.drawImageSlice sx sy sw sh dx dy dw dh _ _ =>
      (∃ u, unitIv u ∧ sx = u * vw) ∧
      (∃ u, unitIv u ∧ sy = u * vh) ∧
      (∃ u, unitIv u ∧ sw = u * (vw / 2)) ∧
      (∃ u, unitIv u ∧ sh = u * (vh / 2)) ∧
      (∃ d, -P.displacement ≤ d ∧ d ≤ P.displacement ∧ dx = sx * sc + oX + d) ∧
      (∃ d, -P.displacement ≤ d ∧ d ≤ P.displacement ∧ dy = sy * sc + oY + d) ∧
      (∃ z, 1 ≤ z ∧ z ≤ 1 + P.zoomGlitch ∧ dw = sw * sc * z ∧ dh = sh * sc * z)
  | _ => True

/-! ## Pixel semantics of the self-contained drawing commands

The surface is row-major indexed (`i ↦ (i % width, i / width)`); since the
2D context is created with `alpha:false`, the surface is opaque and a pixel
is an RGB triple of channel values. -/

/-- One opaque surface pixel (RGB channel values). -/
structure Pixel where
  r : ℚ
  g : ℚ
  b : ℚ
deriving DecidableEq

/-- The persistent pixel contents of the render surface, row-major. -/
def Surface : Type := ℕ → Pixel

/-- Standard normal (`source-over`) compositing of a source colour with
alpha `a` onto an opaque destination pixel. -/
def sourceOverBlend (dst : Pixel) (sr sg sb a : ℚ) : Pixel :=
  ⟨sr * a + dst.r * (1 - a), sg * a + dst.g * (1 - a), sb * a + dst.b * (1 - a)⟩

/-- Byte `j` of a natural-number word. -/
def byteAt (v j : ℕ) : ℕ := v / 256 ^ j % 256

/-- Decoding of a 32-bit word stored through a `Uint32Array` view of RGBA
bytes on a little-endian host (byte 0 = red, 1 = green, 2 = blue); the
alpha byte is dropped because the `alpha:false` surface is opaque, so a
zero word decodes to opaque black. -/
def decodePixel (v : ℕ) : Pixel := ⟨byteAt v 0, byteAt v 1, byteAt v 2⟩

/-- Effect of one drawing command on the surface of width `sw`. `fillRect`
under normal compositing and `putImageData` (which replaces the pixels it
covers outright, no compositing) are given their platform-fixed meaning;
the image-sampling commands are deferred to the abstract `platform`
rasteriser. -/
def applyOp (platform : DrawOp → Surface → Surface) (sw : ℕ) (op : DrawOp)
    (s : Surface) : Surface :=
  match op with
  | DrawOp.fillRect x y rw rh cr cg cb ca Comp.sourceOver =>
      fun i =>
        if x ≤ ((i % sw : ℕ) : ℚ) ∧ ((i % sw : ℕ) : ℚ) < x + rw ∧
            y ≤ ((i / sw : ℕ) : ℚ) ∧ ((i / sw : ℕ) : ℚ) < y + rh then
          sourceOverBlend (s i) cr cg cb ca
        else s i
  | DrawOp.putImage _ _ buf =>
      fun i => if h : i < buf.length then decodePixel (buf.get ⟨i, h⟩) else s i
  | op => platform op s

/-- Effect of a command list applied in order. -/
def applyOps (platform : DrawOp → Surface → Surface) (sw : ℕ) (ops : List DrawOp)
    (s : Surface) : Surface :=
  ops.foldl (fun t op => applyOp platform sw op t) s

/-- `n`-fold application of a single drawing command. -/
def applyN (platform : DrawOp → Surface → Surface) (sw : ℕ) (op : DrawOp) :
    ℕ → Surface → Surface
  | 0, s => s
  | n+1, s => applyN platform sw op n (applyOp platform sw op s)

/-- The trivial rasteriser (used to evaluate traces that contain no
image-sampling command, on which every rasteriser agrees). -/
def idPlatform : DrawOp → Surface → Surface := fun _ s => s

/-! ## Recording subsystem

`startRecording` / `stopRecording` and the `MediaRecorder` callbacks,
modelled as a state machine over an explicit event list. Recorders are
numbered; `recorderRef` holds the id of the last recorder installed, and
`active` the ids of recorders still capturing. Chunk delivery is an event
naming the recorder that produced it: every recorder created by
`startRecording` got the same `ondataavailable` handler, which pushes
non-empty data into whatever array `recordedChunksRef.current` holds at
delivery time. Per the platform contract, calling `stop()` on an inactive
recorder is a no-op; stopping an active one fires `onstop`, which
finalises the accumulated chunks into a `video/webm` blob downloaded as
`glitch_effect.webm`. -/

/-- A captured chunk's payload. -/
abbrev Bytes : Type := List ℕ

/-- A finalised download: concatenated bytes, file name, MIME type. -/
structure Artifact where
  data : Bytes
  name : String
  mime : String
deriving DecidableEq

/-- Recording-subsystem state. -/
structure RecModel where
  buffer : List Bytes
  recorderRef : Option ℕ
  active : List ℕ
  nextId : ℕ
  artifacts : List Artifact
  isRecording : Bool
deriving DecidableEq

/-- The initial recording state (all refs null, nothing recorded). -/
def recInit : RecModel := ⟨[], none, [], 0, [], false⟩

/-- Recording events: a `startRecording` call, delivery of a chunk by
recorder `rid`, a `stopRecording` call. -/
inductive RecEv
  | start
  | deliver (rid : ℕ) (data : Bytes)
  | stop
deriving DecidableEq

/-- One recording event.
`start`: sets `isRecording`, clears the shared chunk buffer, creates and
starts a fresh recorder and installs it in `recorderRef` — the previous
recorder, if still active, is neither stopped nor detached.
`deliver`: `ondataavailable` of a still-active recorder appends non-empty
data to the current shared buffer.
`stop`: `stopRecording` guards on `recorderRef`; stopping an active
recorder fires its `onstop`, which clears `isRecording` and finalises the
buffer, in arrival order, into the fixed-name artifact; `stop()` on an
already-inactive recorder is a platform no-op. -/
def recStep (s : RecModel) : RecEv → RecModel
  | RecEv.start =>
      ⟨[], some s.nextId, s.nextId :: s.active, s.nextId + 1, s.artifacts, true⟩
  | RecEv.deliver rid data =>
      if rid ∈ s.active ∧ 0 < data.length then
        ⟨s.buffer ++ [data], s.recorderRef, s.active, s.nextId, s.artifacts, s.isRecording⟩
      else s
  | RecEv.stop =>
      match s.recorderRef with
      | none => s
      | some rid =>
          if rid ∈ s.active then
            ⟨s.buffer, s.recorderRef, s.active.erase rid, s.nextId,
              s.artifacts ++ [⟨s.buffer.flatten, "glitch_effect.webm", "video/webm"⟩], false⟩
          else s

/-- Folding a recording event list over a state. -/
def recRun (s : RecModel) (evs : List RecEv) : RecModel :=
  evs.foldl recStep s

/-- The recording sink is idle when no recorder was ever installed or the
installed one has finished. -/
def recIdle (s : RecModel) : Prop :=
  s.recorderRef = none ∨ ∃ rid, s.recorderRef = some rid ∧ rid ∉ s.active

/-! ## Play-state handlers -/

/-- Whether the platform resolves or rejects a `video.play()` call. -/
inductive PlayOutcome
  | resolved
  | rejected
deriving DecidableEq

/-- Play-control state: the React `isPlaying` flag, availability of the
video ref, and the console error log. -/
structure PlayState where
  isPlaying : Bool
  videoAvail : Bool
  logged : List String
deriving DecidableEq

/-- `togglePlay`: guarded on the video ref; pauses when playing; otherwise
calls `play()` — whose rejection is only logged by the `catch` — and then
unconditionally flips `isPlaying`, regardless of the outcome. -/
def togglePlay (s : PlayState) (outcome : PlayOutcome) : PlayState :=
  if s.videoAvail then
    if s.isPlaying then ⟨false, s.videoAvail, s.logged⟩
    else
      match outcome with
      | PlayOutcome.resolved => ⟨true, s.videoAvail, s.logged⟩
      | PlayOutcome.rejected => ⟨true, s.videoAvail, s.logged ++ ["play rejected"]⟩
  else s

/-- The `useEffect` on `videoSrc`: when a source is set and the ref is
available, `play().then(() => setIsPlaying(true)).catch(console.error)` —
the play state advances only when playback actually starts; a rejection is
only logged. -/
def videoSrcEffect (s : PlayState) (videoSrcSet : Bool) (outcome : PlayOutcome) : PlayState :=
  if videoSrcSet && s.videoAvail then
    match outcome with
    | PlayOutcome.resolved => ⟨true, s.videoAvail, s.logged⟩
    | PlayOutcome.rejected => ⟨s.isPlaying, s.videoAvail, s.logged ++ ["play rejected"]⟩
  else s

/-! ## Concrete evaluation data -/

/-- A constant random stream (each draw is `1/2`). -/
def rngHalf : ℕ → ℚ := fun _ => 1/2

/-- A 100×100 surface showing a ready 100×100 video. -/
def inpCover : TickInput := ⟨true, true, some (100, 100), 0, 0, 2, true, 100, 100⟩

/-- Default parameters, except `scale = 1/2` and no slice attempts. -/
def paramsHalfScale : Params := ⟨200, 100, 0, 0, 50, 1/10, 1/10, 1/2, 1/10⟩

/-- An all-white surface. -/
def whiteSurface : Surface := fun _ => ⟨255, 255, 255⟩

/-- A uniform mid-gray surface. -/
def graySurface : Surface := fun _ => ⟨100, 100, 100⟩

/-- A 1×1 surface with no video source configured and no frame ready. -/
def inpNoSignal : TickInput := ⟨true, true, some (1, 1), 0, 0, 0, false, 0, 0⟩

/-- Default parameters, except `feedback = 1/2`. -/
def paramsFbHalf : Params := ⟨200, 100, 1/2, 5, 50, 1/2, 1/10, 1, 1/10⟩

/-- A tick input whose canvas handle is unavailable. -/
def inpUnavail : TickInput := ⟨false, true, none, 7, 5, 2, true, 8, 6⟩

/-- A 4×3 surface showing a ready 8×6 video. -/
def inpReady : TickInput := ⟨true, true, some (4, 3), 2, 2, 2, true, 8, 6⟩

/-- A stream agreeing with `rngHalf` on the first five draws only. -/
def rngHalfTail : ℕ → ℚ := fun n => if n < 5 then 1/2 else 9/10

/-- A recording state whose one session has completed: the recorder is
still installed but no longer active. -/
def recDone : RecModel :=
  ⟨[], some 0, [], 1, [⟨[], "glitch_effect.webm", "video/webm"⟩], false⟩

/-! ## Branch equations of the render loop -/

theorem renderLoop_unavail (inp : TickInput) (P : Params) (rng : ℕ → ℚ)
    (h : inp.canvasAvail = false ∨ inp.videoAvail = false) :
    renderLoop inp P rng = ⟨[], false, inp.canvasW, inp.canvasH, 0⟩ := by
  rcases h with h | h <;> simp [renderLoop, h]

theorem renderLoop_noise (inp : TickInput) (P : Params) (rng : ℕ → ℚ)
    (hc : inp.canvasAvail = true) (hv : inp.videoAvail = true)
    (hr : inp.readyState < 2) (hs : inp.videoSrcSet = false) :
    renderLoop inp P rng =
      ⟨[tickOverlay (resizedDims inp).1 (resizedDims inp).2 P.feedback,
        DrawOp.putImage (resizedDims inp).1 (resizedDims inp).2
          (noiseBuffer rng 0 ((resizedDims inp).1 * (resizedDims inp).2))],
       true, (resizedDims inp).1, (resizedDims inp).2,
       (resizedDims inp).1 * (resizedDims inp).2⟩ := by
  simp [renderLoop, hc, hv, hr, hs]

theorem renderLoop_srcWait (inp : TickInput) (P : Params) (rng : ℕ → ℚ)
    (hc : inp.canvasAvail = true) (hv : inp.videoAvail = true)
    (hr : inp.readyState < 2) (hs : inp.videoSrcSet = true) :
    renderLoop inp P rng =
      ⟨[tickOverlay (resizedDims inp).1 (resizedDims inp).2 P.feedback],
       true, (resizedDims inp).1, (resizedDims inp).2, 0⟩ := by
  simp [renderLoop, hc, hv, hr, hs]

theorem renderLoop_ready (inp : TickInput) (P : Params) (rng : ℕ → ℚ)
    (hc : inp.canvasAvail = true) (hv : inp.videoAvail = true)
    (hr : 2 ≤ inp.readyState) :
    renderLoop inp P rng =
      ⟨tickOverlay (resizedDims inp).1 (resizedDims inp).2 P.feedback ::
        baseDraw inp P ::
        (sliceLoop P inp.vw inp.vh (tickScale inp P) (tickOffsetX inp P) (tickOffsetY inp P)
          rng P.slices 0).1,
       true, (resizedDims inp).1, (resizedDims inp).2,
       (sliceLoop P inp.vw inp.vh (tickScale inp P) (tickOffsetX inp P) (tickOffsetY inp P)
          rng P.slices 0).2⟩ := by
  have hnr : ¬ inp.readyState < 2 := not_lt.mpr hr
  simp [renderLoop, hc, hv, hnr, baseDraw, tickScale, tickOffsetX, tickOffsetY, offsetX, offsetY]

theorem renderLoop_overlay_head (inp : TickInput) (P : Params) (rng : ℕ → ℚ)
    (hc : inp.canvasAvail = true) (hv : inp.videoAvail = true) :
    ∃ rest, (renderLoop inp P rng).ops =
      tickOverlay (resizedDims inp).1 (resizedDims inp).2 P.feedback :: rest := by
  by_cases hr : inp.readyState < 2
  · cases hs : inp.videoSrcSet
    · exact ⟨_, by rw [renderLoop_noise inp P rng hc hv hr hs]⟩
    · exact ⟨_, by rw [renderLoop_srcWait inp P rng hc hv hr hs]⟩
  · exact ⟨_, by rw [renderLoop_ready inp P rng hc hv (not_lt.mp hr)]⟩

/-! ## C5: unavailable handles -/

/-- C5 counterexample: with the canvas handle unavailable the tick issues
no drawing command, but — contrary to the claim — it does not schedule a
subsequent tick: the `return` is taken before `requestAnimationFrame`. -/
theorem c5_unavailable_counterexample :
    (renderLoop inpUnavail defaultParams rngHalf).ops = [] ∧
    (renderLoop inpUnavail defaultParams rngHalf).schedulesNext ≠ true := by
  rw [renderLoop_unavail inpUnavail defaultParams rngHalf (Or.inl rfl)]
  simp

/-- C5 (amended): if the source handle or the surface handle is unavailable
at tick time, the tick is a total no-op — no drawing command is issued,
nothing is raised (the step function returns normally), the canvas size is
untouched and no random value is consumed — but no subsequent animation
frame is requested from that invocation: the loop halts instead of
keeping itself running. -/
theorem c5_unavailable_noop (inp : TickInput) (P : Params) (rng : ℕ → ℚ)
    (h : inp.canvasAvail = false ∨ inp.videoAvail = false) :
    renderLoop inp P rng = ⟨[], false, inp.canvasW, inp.canvasH, 0⟩ :=
  renderLoop_unavail inp P rng h

/-- C5 witness: the amended statement evaluated at the concrete
unavailable-canvas input. -/
theorem c5_unavailable_noop_witness :
    (inpUnavail.canvasAvail = false ∨ inpUnavail.videoAvail = false) ∧
    renderLoop inpUnavail defaultParams rngHalf = ⟨[], false, 7, 5, 0⟩ :=
  ⟨Or.inl rfl, c5_unavailable_noop inpUnavail defaultParams rngHalf (Or.inl rfl)⟩

/-! ## C6: playback-start rejection -/

/-- C6 counterexample: from a paused state with the video ref available,
`togglePlay` on a rejected `play()` still advances the play state to
playing — the rejection is only logged, yet `setIsPlaying(!isPlaying)` runs
unconditionally, contrary to the claim. -/
theorem c6_play_rejection_counterexample :
    (togglePlay ⟨false, true, []⟩ PlayOutcome.rejected).isPlaying ≠ false := by
  simp [togglePlay]

/-- C6 (amended): a playback-start rejection is recovered locally by
logging only (nothing is raised, nothing else changes); in the
`videoSrc`-change effect the play state advances only on success, so on a
rejection it is unchanged — but `togglePlay` advances the play state to
playing regardless of the rejection. -/
theorem c6_play_rejection (s : PlayState) (hv : s.videoAvail = true) :
    (videoSrcEffect s true PlayOutcome.rejected).isPlaying = s.isPlaying ∧
    (videoSrcEffect s true PlayOutcome.rejected).logged = s.logged ++ ["play rejected"] ∧
    (s.isPlaying = false →
      (togglePlay s PlayOutcome.rejected).isPlaying = true ∧
      (togglePlay s PlayOutcome.rejected).logged = s.logged ++ ["play rejected"]) := by
  refine ⟨?_, ?_, fun hp => ⟨?_, ?_⟩⟩ <;> simp [videoSrcEffect, togglePlay, hv] <;> simp [hp]

/-- C6 witness: the amended statement evaluated at the concrete paused
state. -/
theorem c6_play_rejection_witness :
    (videoSrcEffect ⟨false, true, []⟩ true PlayOutcome.rejected).isPlaying = false ∧
    (videoSrcEffect ⟨false, true, []⟩ true PlayOutcome.rejected).logged = [] ++ ["play rejected"] ∧
    ((false : Bool) = false →
      (togglePlay ⟨false, true, []⟩ PlayOutcome.rejected).isPlaying = true ∧
      (togglePlay ⟨false, true, []⟩ PlayOutcome.rejected).logged = [] ++ ["play rejected"]) :=
  c6_play_rejection ⟨false, true, []⟩ rfl

/-! ## C7, C8, C10: recording sink -/

theorem recRun_deliver_chunks (cs : List Bytes) (s : RecModel) (rid : ℕ)
    (hm : rid ∈ s.active) :
    recRun s (cs.map (RecEv.deliver rid)) =
      ⟨s.buffer ++ cs.filter (fun c => 0 < c.length), s.recorderRef, s.active, s.nextId,
        s.artifacts, s.isRecording⟩ := by
  induction cs generalizing s with
  | nil => cases s; simp [recRun]
  | cons c cs ih =>
    simp only [recRun] at ih ⊢
    simp only [List.map_cons, List.foldl_cons]
    by_cases hl : 0 < c.length
    · have hstep : recStep s (RecEv.deliver rid c) =
          ⟨s.buffer ++ [c], s.recorderRef, s.active, s.nextId, s.artifacts, s.isRecording⟩ := by
        simp [recStep, hm, hl]
      rw [hstep,
        ih ⟨s.buffer ++ [c], s.recorderRef, s.active, s.nextId, s.artifacts, s.isRecording⟩ hm]
      simp [hl, List.filter_cons]
    · have hstep : recStep s (RecEv.deliver rid c) = s := by
        simp [recStep, hl]
      rw [hstep, ih s hm]
      simp [hl, List.filter_cons]

/-- C7: for a recording session started from the initial state, delivering
chunks `cs` and stopping finalises exactly the non-empty chunks among
`cs`, concatenated in arrival order, into a single artifact downloaded
under the fixed name `glitch_effect.webm` with MIME type `video/webm`;
with zero chunks this still yields one empty (but well-formed) artifact,
and nothing is raised at any step. -/
theorem c7_recording_artifact (cs : List Bytes) :
    (recRun recInit ([RecEv.start] ++ cs.map (RecEv.deliver 0) ++ [RecEv.stop])).artifacts =
      [⟨(cs.filter (fun c => 0 < c.length)).flatten, "glitch_effect.webm", "video/webm"⟩] := by
  have h1 : recStep recInit RecEv.start = ⟨[], some 0, [0], 1, [], true⟩ := by
    simp [recStep, recInit]
  have h2 := recRun_deliver_chunks cs ⟨[], some 0, [0], 1, [], true⟩ 0 (by simp)
  simp only [recRun, List.foldl_append, List.foldl_cons, List.foldl_nil] at h2 ⊢
  rw [h1, h2]
  simp [recStep]

/-- C8: calling `stopRecording` while the sink is idle — the recorder ref
never populated, or holding a recorder whose session already completed —
changes no state and raises nothing: the ref guard skips the call in the
first case, and in the second the platform's `stop()` on an inactive
recorder is a no-op. -/
theorem c8_stop_idle_noop (s : RecModel) (h : recIdle s) :
    recStep s RecEv.stop = s := by
  rcases h with h | ⟨rid, href, hact⟩
  · simp [recStep, h]
  · simp [recStep, href, hact]

/-- C8 witness: the theorem evaluated both at the never-started initial
state and at a completed-session state. -/
theorem c8_stop_idle_noop_witness :
    (recIdle recInit ∧ recStep recInit RecEv.stop = recInit) ∧
    (recIdle recDone ∧ recStep recDone RecEv.stop = recDone) :=
  ⟨⟨Or.inl rfl, c8_stop_idle_noop recInit (Or.inl rfl)⟩,
   ⟨Or.inr ⟨0, rfl, by simp [recDone]⟩,
    c8_stop_idle_noop recDone (Or.inr ⟨0, rfl, by simp [recDone]⟩)⟩⟩

/-- C10: `startRecording` never stops or detaches a still-active previous
recorder — every previously active recorder stays active — while it
unconditionally clears the shared chunk buffer and installs the fresh
recorder in the ref; consequently, in the concrete run where the first
recorder delivers a chunk after a second session has started, that chunk
lands in the second session's buffer and appears in the second session's
finalised artifact. -/
theorem c10_start_leaks_previous_recorder :
    (∀ s : RecModel,
      (recStep s RecEv.start).buffer = [] ∧
      (recStep s RecEv.start).recorderRef = some s.nextId ∧
      s.active ⊆ (recStep s RecEv.start).active) ∧
    0 ∈ (recRun recInit [RecEv.start, RecEv.deliver 0 [1], RecEv.start]).active ∧
    (recRun recInit [RecEv.start, RecEv.deliver 0 [1], RecEv.start,
        RecEv.deliver 0 [2], RecEv.deliver 1 [3], RecEv.stop]).artifacts =
      [⟨[2, 3], "glitch_effect.webm", "video/webm"⟩] := by
  refine ⟨fun s => ⟨rfl, rfl, ?_⟩, ?_, ?_⟩
  · intro a ha
    simp [recStep]
    exact Or.inr ha
  · decide
  · decide

/-! ## C1: base cover-fit geometry -/

/-- C1 counterexample: on a 100×100 surface with a ready 100×100 frame and
`scale = 1/2`, the base draw is the 50×50 rectangle at (25,25): the claim's
offset formulas hold, but the drawn base image covers the surface on
neither axis, so the for-every-scale cover property is false. -/
theorem c1_cover_fit_counterexample :
    (renderLoop inpCover paramsHalfScale rngHalf).ops =
      [tickOverlay 100 100 (1/10),
       DrawOp.drawImageFull 25 25 50 50
         (PixFilter.contrastBrightnessGrayscale 200 100) Comp.screen] ∧
    ¬ (inpCover.vw * tickScale inpCover paramsHalfScale = ((resizedDims inpCover).1 : ℚ) ∨
       inpCover.vh * tickScale inpCover paramsHalfScale = ((resizedDims inpCover).2 : ℚ)) := by
  constructor
  · rw [renderLoop_ready inpCover paramsHalfScale rngHalf rfl rfl (by decide)]
    norm_num [baseDraw, tickScale, tickOffsetX, tickOffsetY, offsetX, offsetY, coverScale,
      tickOverlay, sliceLoop, inpCover, paramsHalfScale, resizedDims, max_self]
  · norm_num [tickScale, coverScale, inpCover, paramsHalfScale, resizedDims, max_self]

/-- C1 (amended): for every frame `(vw,vh)` and surface `(w,h)`, the base
composite draws the full frame scaled by
`coverScale = max(w/vw, h/vh) * params.scale` at the centered offsets
`offsetX = (w - vw*coverScale)/2` and `offsetY = (h - vh*coverScale)/2`,
filtered by the contrast/brightness/grayscale chain and composited with
`screen`; the drawn base image exactly covers the surface on at least one
axis when `params.scale = 1` (for other scale values it is merely scaled
proportionally and centered, and can cover neither axis). -/
theorem c1_cover_fit (inp : TickInput) (P : Params) (rng : ℕ → ℚ)
    (hc : inp.canvasAvail = true) (hv : inp.videoAvail = true) (hr : 2 ≤ inp.readyState)
    (hvw : 0 < inp.vw) (hvh : 0 < inp.vh) :
    (∃ rest, (renderLoop inp P rng).ops =
        tickOverlay (resizedDims inp).1 (resizedDims inp).2 P.feedback ::
        DrawOp.drawImageFull
          ((((resizedDims inp).1 : ℚ) - inp.vw * tickScale inp P) / 2)
          ((((resizedDims inp).2 : ℚ) - inp.vh * tickScale inp P) / 2)
          (inp.vw * tickScale inp P) (inp.vh * tickScale inp P)
          (PixFilter.contrastBrightnessGrayscale P.threshold P.brightness) Comp.screen :: rest) ∧
    (P.scale = 1 →
      inp.vw * tickScale inp P = ((resizedDims inp).1 : ℚ) ∨
      inp.vh * tickScale inp P = ((resizedDims inp).2 : ℚ)) := by
  constructor
  · exact ⟨(sliceLoop P inp.vw inp.vh (tickScale inp P) (tickOffsetX inp P) (tickOffsetY inp P)
      rng P.slices 0).1, by rw [renderLoop_ready inp P rng hc hv hr]; rfl⟩
  · intro hs1
    rcases le_total (((resizedDims inp).1 : ℚ) / inp.vw) (((resizedDims inp).2 : ℚ) / inp.vh)
      with hle | hle
    · right
      rw [tickScale, coverScale, hs1, max_eq_right hle, mul_one]
      field_simp
    · left
      rw [tickScale, coverScale, hs1, max_eq_left hle, mul_one]
      field_simp

/-- C1 witness: the amended statement evaluated on a 4×3 surface with a
ready 8×6 frame at the default scale 1 (the cover fit is exact on both
axes there). -/
theorem c1_cover_fit_witness :
    (∃ rest, (renderLoop inpReady defaultParams rngHalf).ops =
        tickOverlay 4 3 ((1 : ℚ)/10) ::
        DrawOp.drawImageFull (((4 : ℚ) - 8 * tickScale inpReady defaultParams) / 2)
          (((3 : ℚ) - 6 * tickScale inpReady defaultParams) / 2)
          (8 * tickScale inpReady defaultParams) (6 * tickScale inpReady defaultParams)
          (PixFilter.contrastBrightnessGrayscale 200 100) Comp.screen :: rest) ∧
    (defaultParams.scale = 1 →
      8 * tickScale inpReady defaultParams = 4 ∨
      6 * tickScale inpReady defaultParams = 3) :=
  c1_cover_fit inpReady defaultParams rngHalf rfl rfl (by decide)
    (by norm_num [inpReady]) (by norm_num [inpReady])

/-! ## C2: feedback decay -/

theorem overlay_decay_step (platform : DrawOp → Surface → Surface) (w h : ℕ) (hw : 0 < w)
    (fb : ℚ) (s : Surface) (i : ℕ) (hi : i < w * h) :
    applyOp platform w (tickOverlay w h fb) s i =
      ⟨(s i).r * fb, (s i).g * fb, (s i).b * fb⟩ := by
  have h1 : ((i % w : ℕ) : ℚ) < 0 + (w : ℚ) := by
    rw [zero_add]
    exact_mod_cast Nat.mod_lt i hw
  have h2 : ((i / w : ℕ) : ℚ) < 0 + (h : ℚ) := by
    rw [zero_add]
    have : i / w < h := Nat.div_lt_of_lt_mul (by omega)
    exact_mod_cast this
  simp only [tickOverlay, applyOp]
  rw [if_pos ⟨Nat.cast_nonneg _, h1, Nat.cast_nonneg _, h2⟩]
  simp only [sourceOverBlend, Pixel.mk.injEq]
  refine ⟨by ring, by ring, by ring⟩

theorem overlay_decay (platform : DrawOp → Surface → Surface) (w h : ℕ) (hw : 0 < w)
    (fb : ℚ) (s : Surface) (i : ℕ) (hi : i < w * h) (n : ℕ) :
    applyN platform w (tickOverlay w h fb) n s i =
      ⟨(s i).r * fb ^ n, (s i).g * fb ^ n, (s i).b * fb ^ n⟩ := by
  induction n generalizing s with
  | zero => simp [applyN]
  | succ n ih =>
    simp only [applyN]
    rw [ih (applyOp platform w (tickOverlay w h fb) s),
      overlay_decay_step platform w h hw fb s i hi]
    simp only [Pixel.mk.injEq, pow_succ]
    refine ⟨by ring, by ring, by ring⟩

/-- C2 counterexample: with `feedback = 1/10`, one overlay application to a
white pixel leaves `255 * 1/10`, not `255 * (1 - 1/10)`: the per-tick
retention factor is `feedback`, so content from `n` ticks ago decays as
`feedback^n`, not `(1-feedback)^n`. -/
theorem c2_feedback_decay_counterexample :
    applyN idPlatform 1 (tickOverlay 1 1 (1/10)) 1 whiteSurface 0 ≠
      ⟨255 * (1 - 1/10), 255 * (1 - 1/10), 255 * (1 - 1/10)⟩ := by
  rw [overlay_decay idPlatform 1 1 (by norm_num) (1/10) whiteSurface 0 (by norm_num) 1]
  simp only [whiteSurface, Pixel.mk.injEq, ne_eq]
  norm_num

/-- C2 (amended): every tick whose handles are available begins by filling
the whole surface with a uniform black overlay of opacity `1 - feedback`
composited normally; consequently the contribution of a pixel's content
from `n` ticks ago decays proportionally to `feedback^n` (the overlay
multiplies the retained content by `feedback` each tick), not
`(1-feedback)^n`. -/
theorem c2_feedback_decay (inp : TickInput) (P : Params) (rng : ℕ → ℚ)
    (platform : DrawOp → Surface → Surface) (w h : ℕ) (hw : 0 < w) (s : Surface)
    (i : ℕ) (hi : i < w * h) (n : ℕ)
    (hc : inp.canvasAvail = true) (hv : inp.videoAvail = true) :
    (∃ rest, (renderLoop inp P rng).ops =
        tickOverlay (resizedDims inp).1 (resizedDims inp).2 P.feedback :: rest) ∧
    applyN platform w (tickOverlay w h P.feedback) n s i =
      ⟨(s i).r * P.feedback ^ n, (s i).g * P.feedback ^ n, (s i).b * P.feedback ^ n⟩ :=
  ⟨renderLoop_overlay_head inp P rng hc hv,
   overlay_decay platform w h hw P.feedback s i hi n⟩

/-- C2 witness: the amended statement evaluated at the ready 4×3 input and
two overlay ticks on a 1×1 white surface. -/
theorem c2_feedback_decay_witness :
    (∃ rest, (renderLoop inpReady defaultParams rngHalf).ops =
        tickOverlay 4 3 ((1 : ℚ)/10) :: rest) ∧
    applyN idPlatform 1 (tickOverlay 1 1 ((1 : ℚ)/10)) 2 whiteSurface 0 =
      ⟨255 * ((1 : ℚ)/10) ^ 2, 255 * ((1 : ℚ)/10) ^ 2, 255 * ((1 : ℚ)/10) ^ 2⟩ :=
  c2_feedback_decay inpReady defaultParams rngHalf idPlatform 1 1 (by decide)
    whiteSurface 0 (by decide) 2 rfl rfl

/-! ## C4: no-signal noise -/

theorem noiseBuffer_length (rng : ℕ → ℚ) (k len : ℕ) :
    (noiseBuffer rng k len).length = len := by
  simp [noiseBuffer]

theorem noiseBuffer_get (rng : ℕ → ℚ) (k len i : ℕ)
    (h2 : i < (noiseBuffer rng k len).length) :
    (noiseBuffer rng k len).get ⟨i, h2⟩ = if rng (k+i) < 1/10 then noisePixel else 0 := by
  simp [noiseBuffer]

/-- C4 counterexample: on a 1×1 surface with no source configured, the
no-signal branch emits a full-surface `putImageData` whose single word is
`0` (the pixel's draw `1/2` is not below `0.1`); writing that buffer to an
opaque surface sets the pixel to opaque black rather than leaving it
untouched — the fallback is a full repaint, not sparse noise. -/
theorem c4_noise_counterexample :
    (renderLoop inpNoSignal paramsFbHalf rngHalf).ops =
      [tickOverlay 1 1 (1/2), DrawOp.putImage 1 1 [0]] ∧
    applyOp idPlatform 1 (DrawOp.putImage 1 1 [0]) graySurface 0 ≠ graySurface 0 := by
  constructor
  · rw [renderLoop_noise inpNoSignal paramsFbHalf rngHalf rfl rfl (by decide) rfl]
    norm_num [tickOverlay, noiseBuffer, paramsFbHalf, rngHalf, inpNoSignal, resizedDims,
      List.range_succ]
  · have h0 : (0 : ℕ) < ([0] : List ℕ).length := by decide
    simp only [applyOp]
    rw [dif_pos h0]
    simp only [List.get, decodePixel, byteAt, graySurface, ne_eq, Pixel.mk.injEq]
    norm_num

/-- C4 (amended): when the frame is not ready and no video source is
configured, the tick issues exactly the feedback overlay followed by one
full-surface `putImageData` of a buffer holding, independently per pixel,
the word `0xff1a1a1a` with probability 0.1 and `0` otherwise; on the
opaque surface each selected pixel becomes the dark gray `(26,26,26)` and
every other pixel becomes opaque black `(0,0,0)` — a full repaint, not a
sparse touch-up — and the base-composite and slice steps are skipped (no
image draw is issued). -/
theorem c4_noise_fill (inp : TickInput) (P : Params) (rng : ℕ → ℚ)
    (platform : DrawOp → Surface → Surface) (s : Surface) (i : ℕ)
    (hc : inp.canvasAvail = true) (hv : inp.videoAvail = true)
    (hr : inp.readyState < 2) (hs : inp.videoSrcSet = false)
    (hi : i < (resizedDims inp).1 * (resizedDims inp).2) :
    (renderLoop inp P rng).ops =
      [tickOverlay (resizedDims inp).1 (resizedDims inp).2 P.feedback,
       DrawOp.putImage (resizedDims inp).1 (resizedDims inp).2
         (noiseBuffer rng 0 ((resizedDims inp).1 * (resizedDims inp).2))] ∧
    applyOps platform (resizedDims inp).1 (renderLoop inp P rng).ops s i =
      (if rng i < 1/10 then ⟨26, 26, 26⟩ else ⟨0, 0, 0⟩) := by
  have hops := renderLoop_noise inp P rng hc hv hr hs
  refine ⟨by rw [hops], ?_⟩
  rw [hops]
  simp only [applyOps, List.foldl_cons, List.foldl_nil]
  have hlen : i < (noiseBuffer rng 0 ((resizedDims inp).1 * (resizedDims inp).2)).length := by
    rw [noiseBuffer_length]
    exact hi
  simp only [applyOp]
  rw [dif_pos hlen, noiseBuffer_get rng 0 _ i hlen]
  rcases lt_or_ge (rng (0 + i)) (1/10) with hlt | hge
  · rw [if_pos hlt, if_pos (by rw [Nat.zero_add] at hlt; exact hlt)]
    simp [decodePixel, noisePixel, byteAt]
  · rw [if_neg (not_lt.mpr hge), if_neg (by rw [Nat.zero_add] at hge; exact not_lt.mpr hge)]
    simp [decodePixel, byteAt]

/-- C4 witness: the amended statement evaluated at the 1×1 no-signal input
with the constant stream `1/2` (the pixel is not selected and becomes
opaque black). -/
theorem c4_noise_fill_witness :
    (renderLoop inpNoSignal paramsFbHalf rngHalf).ops =
      [tickOverlay 1 1 paramsFbHalf.feedback,
       DrawOp.putImage 1 1 (noiseBuffer rngHalf 0 1)] ∧
    applyOps idPlatform 1 (renderLoop inpNoSignal paramsFbHalf rngHalf).ops graySurface 0 =
      (if rngHalf 0 < 1/10 then ⟨26, 26, 26⟩ else ⟨0, 0, 0⟩) :=
  c4_noise_fill inpNoSignal paramsFbHalf rngHalf idPlatform graySurface 0
    rfl rfl (by decide) rfl (by decide)

/-! ## C3: glitch-slice geometry -/

theorem rval_sym_bounds (u d : ℚ) (hu : unitIv u) (hd : 0 ≤ d) :
    -d ≤ rval u (-d) d ∧ rval u (-d) d ≤ d := by
  obtain ⟨h0, h1⟩ := hu
  unfold rval
  constructor <;> nlinarith

theorem sliceIter_wf (P : Params) (vw vh sc oX oY : ℚ) (rng : ℕ → ℚ)
    (hrng : ∀ n, unitIv (rng n)) (hd : 0 ≤ P.displacement) (hz : 0 ≤ P.zoomGlitch) (k : ℕ) :
    ∀ op ∈ (sliceIter P vw vh sc oX oY rng k).1, sliceOpWf P vw vh sc oX oY op := by
  intro op hop
  simp only [sliceIter] at hop
  split at hop
  · split at hop
    · simp only [List.mem_cons, List.not_mem_nil, or_false] at hop
      rcases hop with hop | hop
      · subst hop
        simp only [sliceOpWf, sliceGeom, sliceFilter]
        refine ⟨⟨rng (k+2), hrng _, rfl⟩, ⟨rng (k+3), hrng _, rfl⟩,
          ⟨rng (k+4), hrng _, rfl⟩, ⟨rng (k+5), hrng _, rfl⟩,
          ⟨rval (rng (k+6)) (-P.displacement) P.displacement,
            (rval_sym_bounds _ _ (hrng _) hd).1, (rval_sym_bounds _ _ (hrng _) hd).2, rfl⟩,
          ⟨rval (rng (k+7)) (-P.displacement) P.displacement,
            (rval_sym_bounds _ _ (hrng _) hd).1, (rval_sym_bounds _ _ (hrng _) hd).2, rfl⟩,
          ⟨1 + rng (k+8) * P.zoomGlitch, ?_, ?_, rfl, rfl⟩⟩
        · nlinarith [(hrng (k+8)).1, (hrng (k+8)).2]
        · nlinarith [(hrng (k+8)).1, (hrng (k+8)).2]
      · subst hop
        simp [sliceOpWf]
    · simp only [List.mem_cons, List.not_mem_nil, or_false] at hop
      subst hop
      simp only [sliceOpWf, sliceGeom, sliceFilter]
      refine ⟨⟨rng (k+2), hrng _, rfl⟩, ⟨rng (k+3), hrng _, rfl⟩,
        ⟨rng (k+4), hrng _, rfl⟩, ⟨rng (k+5), hrng _, rfl⟩,
        ⟨rval (rng (k+6)) (-P.displacement) P.displacement,
          (rval_sym_bounds _ _ (hrng _) hd).1, (rval_sym_bounds _ _ (hrng _) hd).2, rfl⟩,
        ⟨rval (rng (k+7)) (-P.displacement) P.displacement,
          (rval_sym_bounds _ _ (hrng _) hd).1, (rval_sym_bounds _ _ (hrng _) hd).2, rfl⟩,
        ⟨1 + rng (k+8) * P.zoomGlitch, ?_, ?_, rfl, rfl⟩⟩
      · nlinarith [(hrng (k+8)).1, (hrng (k+8)).2]
      · nlinarith [(hrng (k+8)).1, (hrng (k+8)).2]
  · simp at hop

theorem sliceLoop_wf (P : Params) (vw vh sc oX oY : ℚ) (rng : ℕ → ℚ)
    (hrng : ∀ n, unitIv (rng n)) (hd : 0 ≤ P.displacement) (hz : 0 ≤ P.zoomGlitch)
    (n k : ℕ) :
    ∀ op ∈ (sliceLoop P vw vh sc oX oY rng n k).1, sliceOpWf P vw vh sc oX oY op := by
  induction n generalizing k with
  | zero =>
    intro op hop
    simp [sliceLoop] at hop
  | succ n ih =>
    intro op hop
    simp only [sliceLoop, List.mem_append] at hop
    rcases hop with hop | hop
    · exact sliceIter_wf P vw vh sc oX oY rng hrng hd hz k op hop
    · exact ih _ op hop

/-- C3: every glitch-slice draw command issued by a tick is well-formed:
its source origin is a unit draw scaled over the full frame extent
`[0,vw) × [0,vh)` and its source size a unit draw scaled over
`[0,vw/2) × [0,vh/2)`; its destination position is the source position
mapped by the base cover transform (`coverScale` and the centered offsets)
plus an independent displacement within `[-displacement, displacement]` on
each axis; and its destination size is the source size times `coverScale`
times one shared zoom factor `z = 1 + u*zoomGlitch ∈ [1, 1+zoomGlitch]`. -/
theorem c3_slice_geometry (inp : TickInput) (P : Params) (rng : ℕ → ℚ)
    (hrng : ∀ n, unitIv (rng n)) (hd : 0 ≤ P.displacement) (hz : 0 ≤ P.zoomGlitch) :
    ∀ op ∈ (renderLoop inp P rng).ops,
      sliceOpWf P inp.vw inp.vh (tickScale inp P) (tickOffsetX inp P) (tickOffsetY inp P) op := by
  intro op hop
  by_cases hc : inp.canvasAvail = true
  · by_cases hv : inp.videoAvail = true
    · by_cases hr : inp.readyState < 2
      · cases hs : inp.videoSrcSet
        · rw [renderLoop_noise inp P rng hc hv hr hs] at hop
          simp only [List.mem_cons, List.not_mem_nil, or_false] at hop
          rcases hop with hop | hop <;> (subst hop; simp [sliceOpWf, tickOverlay])
        · rw [renderLoop_srcWait inp P rng hc hv hr hs] at hop
          simp only [List.mem_cons, List.not_mem_nil, or_false] at hop
          subst hop
          simp [sliceOpWf, tickOverlay]
      · rw [renderLoop_ready inp P rng hc hv (not_lt.mp hr)] at hop
        simp only [List.mem_cons] at hop
        rcases hop with hop | hop | hop
        · subst hop; simp [sliceOpWf, tickOverlay]
        · subst hop; simp [sliceOpWf, baseDraw]
        · exact sliceLoop_wf P inp.vw inp.vh (tickScale inp P) (tickOffsetX inp P)
            (tickOffsetY inp P) rng hrng hd hz P.slices 0 op hop
    · rw [renderLoop_unavail inp P rng (Or.inr (by simpa using hv))] at hop
      simp at hop
  · rw [renderLoop_unavail inp P rng (Or.inl (by simpa using hc))] at hop
    simp at hop

/-- C3 witness: the slice well-formedness statement evaluated at the ready
4×3 input, default parameters and the constant stream `1/2`. -/
theorem c3_slice_geometry_witness :
    (∀ n, unitIv (rngHalf n)) ∧ 0 ≤ defaultParams.displacement ∧
    0 ≤ defaultParams.zoomGlitch ∧
    ∀ op ∈ (renderLoop inpReady defaultParams rngHalf).ops,
      sliceOpWf defaultParams inpReady.vw inpReady.vh (tickScale inpReady defaultParams)
        (tickOffsetX inpReady defaultParams) (tickOffsetY inpReady defaultParams) op := by
  have hrng : ∀ n, unitIv (rngHalf n) := fun n => by constructor <;> norm_num [rngHalf]
  have hd : 0 ≤ defaultParams.displacement := by norm_num [defaultParams]
  have hz : 0 ≤ defaultParams.zoomGlitch := by norm_num [defaultParams]
  exact ⟨hrng, hd, hz, c3_slice_geometry inpReady defaultParams rngHalf hrng hd hz⟩

/-! ## C9: determinism given the random stream -/

theorem sliceIter_snd_ge (P : Params) (vw vh sc oX oY : ℚ) (rng : ℕ → ℚ) (k : ℕ) :
    k + 1 ≤ (sliceIter P vw vh sc oX oY rng k).2 := by
  simp only [sliceIter]
  split
  · split <;> simp
  · simp

theorem sliceLoop_snd_ge (P : Params) (vw vh sc oX oY : ℚ) (rng : ℕ → ℚ) (n k : ℕ) :
    k ≤ (sliceLoop P vw vh sc oX oY rng n k).2 := by
  induction n generalizing k with
  | zero => simp [sliceLoop]
  | succ n ih =>
    simp only [sliceLoop]
    calc k ≤ k + 1 := Nat.le_succ k
    _ ≤ (sliceIter P vw vh sc oX oY rng k).2 := sliceIter_snd_ge P vw vh sc oX oY rng k
    _ ≤ _ := ih _

theorem sliceIter_congr (P : Params) (vw vh sc oX oY : ℚ) (rng1 rng2 : ℕ → ℚ) (k : ℕ)
    (h : ∀ j, j < (sliceIter P vw vh sc oX oY rng1 k).2 → rng1 j = rng2 j) :
    sliceIter P vw vh sc oX oY rng1 k = sliceIter P vw vh sc oX oY rng2 k := by
  have hk : rng1 k = rng2 k :=
    h k (lt_of_lt_of_le (Nat.lt_succ_self k) (sliceIter_snd_ge P vw vh sc oX oY rng1 k))
  by_cases hc : 1 - P.chaos < rng1 k
  · have hc2 : 1 - P.chaos < rng2 k := hk ▸ hc
    have hsnd : (sliceIter P vw vh sc oX oY rng1 k).2 = k + 10 := by
      by_cases h9 : rng1 (k+9) < 3/10 <;> simp [sliceIter, hc, h9]
    have hj : ∀ j, j < k + 10 → rng1 j = rng2 j := fun j hj2 => h j (by omega)
    have hg : sliceGeom P vw vh sc oX oY rng1 k = sliceGeom P vw vh sc oX oY rng2 k := by
      simp only [sliceGeom]
      rw [hj (k+2) (by omega), hj (k+3) (by omega), hj (k+4) (by omega),
        hj (k+5) (by omega), hj (k+6) (by omega), hj (k+7) (by omega), hj (k+8) (by omega)]
    have hf : sliceFilter P rng1 k = sliceFilter P rng2 k := by
      simp only [sliceFilter]
      rw [hj (k+1) (by omega)]
    have h9 : rng1 (k+9) = rng2 (k+9) := hj (k+9) (by omega)
    simp only [sliceIter, if_pos hc, if_pos hc2, hg, hf, h9]
  · have hc2 : ¬ 1 - P.chaos < rng2 k := hk ▸ hc
    simp only [sliceIter, if_neg hc, if_neg hc2]

theorem sliceLoop_congr (P : Params) (vw vh sc oX oY : ℚ) (rng1 rng2 : ℕ → ℚ) (n k : ℕ)
    (h : ∀ j, j < (sliceLoop P vw vh sc oX oY rng1 n k).2 → rng1 j = rng2 j) :
    sliceLoop P vw vh sc oX oY rng1 n k = sliceLoop P vw vh sc oX oY rng2 n k := by
  induction n generalizing k with
  | zero => rfl
  | succ n ih =>
    have hsnd : (sliceLoop P vw vh sc oX oY rng1 (n+1) k).2
        = (sliceLoop P vw vh sc oX oY rng1 n (sliceIter P vw vh sc oX oY rng1 k).2).2 := rfl
    have hle : (sliceIter P vw vh sc oX oY rng1 k).2
        ≤ (sliceLoop P vw vh sc oX oY rng1 n (sliceIter P vw vh sc oX oY rng1 k).2).2 :=
      sliceLoop_snd_ge P vw vh sc oX oY rng1 n _
    have hit : sliceIter P vw vh sc oX oY rng1 k = sliceIter P vw vh sc oX oY rng2 k :=
      sliceIter_congr P vw vh sc oX oY rng1 rng2 k
        (fun j hj => h j (by rw [hsnd]; exact lt_of_lt_of_le hj hle))
    have hrest : sliceLoop P vw vh sc oX oY rng1 n (sliceIter P vw vh sc oX oY rng1 k).2
        = sliceLoop P vw vh sc oX oY rng2 n (sliceIter P vw vh sc oX oY rng1 k).2 :=
      ih _ (fun j hj => h j (by rw [hsnd]; exact hj))
    simp only [sliceLoop]
    rw [← hit, hrest]

theorem noiseBuffer_congr (rng1 rng2 : ℕ → ℚ) (len : ℕ)
    (h : ∀ j, j < len → rng1 j = rng2 j) :
    noiseBuffer rng1 0 len = noiseBuffer rng2 0 len := by
  simp only [noiseBuffer]
  refine List.map_congr_left (fun i hi => ?_)
  rw [List.mem_range] at hi
  rw [h (0 + i) (by omega)]

/-- C9: the tick is deterministic in the injected inputs — the frame and
readiness data, the parameter snapshot and the random stream fully
determine its behaviour. Any two random streams that agree on the indices
the tick actually consumes produce identical tick outputs (the same
drawing commands, scheduling and consumption), and hence identical surface
contents from any common initial surface under any rasteriser. -/
theorem c9_determinism (inp : TickInput) (P : Params) (rng1 rng2 : ℕ → ℚ)
    (h : ∀ n, n < (renderLoop inp P rng1).nextIdx → rng1 n = rng2 n) :
    renderLoop inp P rng1 = renderLoop inp P rng2 ∧
    ∀ platform sw s, applyOps platform sw (renderLoop inp P rng1).ops s
      = applyOps platform sw (renderLoop inp P rng2).ops s := by
  have main : renderLoop inp P rng1 = renderLoop inp P rng2 := by
    by_cases hc : inp.canvasAvail = true
    · by_cases hv : inp.videoAvail = true
      · by_cases hr : inp.readyState < 2
        · cases hs : inp.videoSrcSet
          · have e1 := renderLoop_noise inp P rng1 hc hv hr hs
            have hidx : (renderLoop inp P rng1).nextIdx
                = (resizedDims inp).1 * (resizedDims inp).2 := by rw [e1]
            rw [e1, renderLoop_noise inp P rng2 hc hv hr hs,
              noiseBuffer_congr rng1 rng2 _ (fun j hj => h j (by rw [hidx]; exact hj))]
          · rw [renderLoop_srcWait inp P rng1 hc hv hr hs,
              renderLoop_srcWait inp P rng2 hc hv hr hs]
        · have e1 := renderLoop_ready inp P rng1 hc hv (not_lt.mp hr)
          have hidx : (renderLoop inp P rng1).nextIdx
              = (sliceLoop P inp.vw inp.vh (tickScale inp P) (tickOffsetX inp P)
                  (tickOffsetY inp P) rng1 P.slices 0).2 := by rw [e1]
          rw [e1, renderLoop_ready inp P rng2 hc hv (not_lt.mp hr),
            sliceLoop_congr P inp.vw inp.vh (tickScale inp P) (tickOffsetX inp P)
              (tickOffsetY inp P) rng1 rng2 P.slices 0
              (fun j hj => h j (by rw [hidx]; exact hj))]
      · rw [renderLoop_unavail inp P rng1 (Or.inr (by simpa using hv)),
          renderLoop_unavail inp P rng2 (Or.inr (by simpa using hv))]
    · rw [renderLoop_unavail inp P rng1 (Or.inl (by simpa using hc)),
        renderLoop_unavail inp P rng2 (Or.inl (by simpa using hc))]
  exact ⟨main, fun platform sw s => by rw [main]⟩

theorem sliceLoop_all_fail (P : Params) (vw vh sc oX oY : ℚ) (rng : ℕ → ℚ)
    (hfail : ∀ k, ¬ 1 - P.chaos < rng k) (n k : ℕ) :
    sliceLoop P vw vh sc oX oY rng n k = ([], k + n) := by
  induction n generalizing k with
  | zero => simp [sliceLoop]
  | succ n ih =>
    simp only [sliceLoop, sliceIter, if_neg (hfail k), ih (k+1)]
    exact Prod.ext rfl (by omega)

/-- C9 witness: the determinism statement evaluated at the ready 4×3 input
with default parameters, for the constant stream `1/2` against a stream
that agrees with it only on the five draws the tick consumes. -/
theorem c9_determinism_witness :
    (∀ n, n < (renderLoop inpReady defaultParams rngHalf).nextIdx →
      rngHalf n = rngHalfTail n) ∧
    (renderLoop inpReady defaultParams rngHalf = renderLoop inpReady defaultParams rngHalfTail ∧
     ∀ platform sw s,
       applyOps platform sw (renderLoop inpReady defaultParams rngHalf).ops s =
       applyOps platform sw (renderLoop inpReady defaultParams rngHalfTail).ops s) := by
  have hfail : ∀ k, ¬ 1 - defaultParams.chaos < rngHalf k := by
    intro k
    norm_num [defaultParams, rngHalf]
  have hidx : (renderLoop inpReady defaultParams rngHalf).nextIdx = 5 := by
    rw [renderLoop_ready inpReady defaultParams rngHalf rfl rfl (by decide)]
    have h5 : defaultParams.slices = 5 := rfl
    rw [h5, sliceLoop_all_fail defaultParams inpReady.vw inpReady.vh
      (tickScale inpReady defaultParams) (tickOffsetX inpReady defaultParams)
      (tickOffsetY inpReady defaultParams) rngHalf hfail 5 0]
  have hagree : ∀ n, n < (renderLoop inpReady defaultParams rngHalf).nextIdx →
      rngHalf n = rngHalfTail n := by
    intro n hn
    rw [hidx] at hn
    simp [rngHalf, rngHalfTail, hn]
  exact ⟨hagree, c9_determinism inpReady defaultParams rngHalf rngHalfTail hagree⟩

end Glitch
